import Mathlib

/-!
Verification of the object-store core of the `version` repository.

The development shallowly embeds the Rust sources into Lean:

* Bytes are `Nat` values (0 ≤ b < 256 where it matters); byte strings are
  `List Nat`.
* The zlib layer is a lossless streaming codec supplied by an external
  crate, so on-disk object files are modelled by their decompressed
  contents; where a claim quantifies over compression behaviour the
  compressor is an explicit function parameter.
* SHA-1 is supplied by the external `sha1` crate; it is embedded here as
  the FIPS 180 algorithm (byte-streaming update, merkle-damgard padding,
  80-round compression), executable so that concrete digests evaluate.
* Fallible Rust paths return `Except`; a Rust panic (from `.expect` or a
  string-slicing bound failure) is modelled by the dedicated error values
  `ReadError.panicked` / `SlicePanic.panicked`, kept distinct from the
  ordinary `anyhow` error results.

Source files: `src/objects.rs`, `src/main.rs`, `src/commands/cat_file.rs`,
`src/commands/hash_object.rs`.
-/

/-- UTF-8 code points of a Lean string literal, used only for ASCII
literals, where they coincide with the UTF-8 bytes the Rust code holds. -/
def strBytes (s : String) : List Nat := s.data.map Char.toNat

/-- `Kind` from `src/objects.rs` lines 21-25: the closed set of object
kinds. -/
inductive Kind
  | Blob
  | Tree
  | Commit
deriving DecidableEq

/-- The `Display` rendering of a kind (`src/objects.rs` lines 27-35):
the lowercase ASCII token, as bytes. -/
def Kind.render : Kind → List Nat
  | .Blob => [98, 108, 111, 98]
  | .Tree => [116, 114, 101, 101]
  | .Commit => [99, 111, 109, 109, 105, 116]

/-- The kind-token match in `Object::read` (`src/objects.rs` lines
119-124): blob / tree / commit, anything else is unknown. -/
def kindOfToken (t : List Nat) : Option Kind :=
  if t = Kind.render .Blob then some .Blob
  else if t = Kind.render .Tree then some .Tree
  else if t = Kind.render .Commit then some .Commit
  else none

/-- Decimal digit bytes of a number, accumulator form; `fuel` bounds the
recursion and any `fuel > n` computes the full representation.  This is
the `Display` rendering of the `u64` size written by
`write!(writer, "{} {}\0", kind, size)` in `src/objects.rs` line 167. -/
def decDigitsAux : Nat → Nat → List Nat → List Nat
  | 0, _, acc => acc
  | fuel + 1, n, acc =>
    if n < 10 then (48 + n) :: acc
    else decDigitsAux fuel (n / 10) ((48 + n % 10) :: acc)

/-- Decimal ASCII rendering of a natural number. -/
def decDigits (n : Nat) : List Nat := decDigitsAux (n + 1) n []

/-- ASCII digit to value, as in the per-character step of Rust
`u64::from_str`. -/
def digitVal (b : Nat) : Option Nat :=
  if 48 ≤ b ∧ b ≤ 57 then some (b - 48) else none

/-- Left-to-right accumulation of decimal digits, failing on the first
non-digit byte. -/
def parseDigitsAux : List Nat → Nat → Option Nat
  | [], acc => some acc
  | b :: rest, acc =>
    match digitVal b with
    | some d => parseDigitsAux rest (acc * 10 + d)
    | none => none

/-- Digit-string parse: empty input is rejected. -/
def parseDigits : List Nat → Option Nat
  | [] => none
  | l => parseDigitsAux l 0

/-- Rust integer `from_str` accepts one optional leading `+` sign on
unsigned types. -/
def stripPlus : List Nat → List Nat
  | b :: rest => if b = 43 then rest else b :: rest
  | [] => []

/-- `str::parse::<u64>` (`src/objects.rs` lines 127-129): optional `+`,
then one or more ASCII digits, rejecting values outside the `u64` range
(18446744073709551616 = 2 ^ 64). -/
def parseU64 (l : List Nat) : Option Nat :=
  match parseDigits (stripPlus l) with
  | some v => if v < 18446744073709551616 then some v else none
  | none => none

/-- `BufRead::read_until(0, &mut buf)` on a fully available stream
(`src/objects.rs` lines 99-101): returns the bytes up to and including
the first NUL together with the remaining stream; if no NUL occurs the
whole stream is consumed. -/
def readUntilNul : List Nat → List Nat × List Nat
  | [] => ([], [])
  | b :: rest =>
    if b = 0 then ([0], rest)
    else
      let p := readUntilNul rest
      (b :: p.1, p.2)

/-- Success condition of `CStr::from_bytes_with_nul` (`src/objects.rs`
line 105): the buffer is nonempty, ends with NUL, and has no interior
NUL. -/
def cstrOk (buf : List Nat) : Bool :=
  decide (buf.getLast? = some 0 ∧ 0 ∉ buf.dropLast)

/-- Whether a continuation byte (0x80..0xBF) sits at a position, per the
UTF-8 wire format. -/
def isContByte (b : Nat) : Bool := decide (128 ≤ b ∧ b < 192)

/-- UTF-8 validation state machine: `need` is the number of outstanding
continuation bytes and `[lo, hi)` the admissible range of the next one
(the first continuation byte after a leading byte carries the
overlong/surrogate/range restriction; later ones are plain 0x80..0xBF).
The leading-byte table is the standard one: ASCII, C2..DF + 1, E0/ED and
E1..EC,EE,EF + 2, F0/F4 and F1..F3 + 3; C0, C1 and F5.. are invalid. -/
def utf8Scan : List Nat → Nat → Nat → Nat → Bool
  | [], need, _, _ => need == 0
  | b :: rest, 0, _, _ =>
    if b < 128 then utf8Scan rest 0 0 0
    else if b < 194 then false
    else if b < 224 then utf8Scan rest 1 128 192
    else if b = 224 then utf8Scan rest 2 160 192
    else if b = 237 then utf8Scan rest 2 128 160
    else if b < 240 then utf8Scan rest 2 128 192
    else if b = 240 then utf8Scan rest 3 144 192
    else if b = 244 then utf8Scan rest 3 128 144
    else if b < 244 then utf8Scan rest 3 128 192
    else false
  | b :: rest, need + 1, lo, hi =>
    if lo ≤ b ∧ b < hi then utf8Scan rest need 128 192 else false

/-- UTF-8 validity of a byte sequence, as checked by `CStr::to_str`
(`src/objects.rs` lines 109-111): the standard table, rejecting overlong
forms, surrogates and code points above U+10FFFF. -/
def isValidUtf8 (l : List Nat) : Bool := utf8Scan l 0 0 0

/-- `split_once(' ')` on the header text (`src/objects.rs` line 114):
split at the first space byte; on valid UTF-8 text the space byte 0x20
only ever encodes the space character, so the byte-level split agrees
with the character-level one. -/
def splitOnceSpace : List Nat → Option (List Nat × List Nat)
  | [] => none
  | b :: rest =>
    if b = 32 then some ([], rest)
    else
      match splitOnceSpace rest with
      | some p => some (b :: p.1, p.2)
      | none => none

/-- Outcomes of `Object::read` in the model.  `panicked` stands for a
Rust panic (an `expect` failure or an out-of-bounds / non-boundary string
slice), which is not an ordinary `anyhow` error result; the remaining
constructors model the distinct `anyhow` failure sites. -/
inductive ReadError
  | notFound
  | panicked
  | malformedUtf8
  | malformedHeader
  | unknownKind
  | invalidSize
  | ioFailure
deriving DecidableEq

instance instDecEqExcept {ε α : Type} [DecidableEq ε] [DecidableEq α] :
    DecidableEq (Except ε α) := fun a b =>
  match a, b with
  | .ok x, .ok y =>
      if h : x = y then isTrue (by rw [h]) else isFalse (by intro hc; cases hc; exact h rfl)
  | .error x, .error y =>
      if h : x = y then isTrue (by rw [h]) else isFalse (by intro hc; cases hc; exact h rfl)
  | .ok _, .error _ => isFalse (by intro hc; cases hc)
  | .error _, .ok _ => isFalse (by intro hc; cases hc)

/-- Header decoding of a decompressed object stream, `src/objects.rs`
lines 97-129: `read_until` NUL, the `CStr::from_bytes_with_nul` check
(whose failure the code turns into a panic via `.expect`), the UTF-8
check of `to_str`, `split_once(' ')`, the kind-token match, and the size
parse.  On success it returns the kind, the declared size, and the
stream remaining after the header. -/
def headerDecode (stream : List Nat) : Except ReadError (Kind × Nat × List Nat) :=
  let p := readUntilNul stream
  if cstrOk p.1 then
    let hdr := p.1.dropLast
    if isValidUtf8 hdr then
      match splitOnceSpace hdr with
      | none => .error .malformedHeader
      | some q =>
        match kindOfToken q.1 with
        | none => .error .unknownKind
        | some k =>
          match parseU64 q.2 with
          | none => .error .invalidSize
          | some size => .ok (k, size, p.2)
    else .error .malformedUtf8
  else .error .panicked

/-- The stream part of `Object::read` after the file is opened
(`src/objects.rs` lines 93-141): decode the header, then expose the
payload through `z.take(size)`; the returned list is what the bounded
reader yields when fully consumed. -/
def readStream (contents : List Nat) : Except ReadError (Kind × Nat × List Nat) :=
  match headerDecode contents with
  | .error e => .error e
  | .ok r => .ok (r.1, r.2.1, r.2.2.take r.2.1)

/-- `str::is_char_boundary` of the Rust standard library: index 0 and the
total length are boundaries, an in-range index is a boundary when the
byte there is not a UTF-8 continuation byte, and an out-of-range index is
not a boundary. -/
def isCharBoundary (l : List Nat) (i : Nat) : Bool :=
  decide (i = 0 ∨ i = l.length ∨ (i < l.length ∧ ¬(128 ≤ l.getD i 0 ∧ l.getD i 0 < 192)))

/-- A Rust panic raised by slicing a string outside a char boundary. -/
inductive SlicePanic
  | panicked
deriving DecidableEq

/-- `(&s[..i], &s[i..])` on a Rust `&str`: both slices succeed exactly
when `i` is a char boundary of `s`; otherwise the program panics. -/
def sliceAt (l : List Nat) (i : Nat) : Except SlicePanic (List Nat × List Nat) :=
  if isCharBoundary l i then .ok (l.take i, l.drop i) else .error .panicked

/-- The object store, modelled as an association list from canonical
path (as bytes) to the decompressed contents of the file stored there.
The zlib layer is lossless, so a file is identified with the stream its
decompression yields. -/
abbrev Store := List (List Nat × List Nat)

/-- Bytes of the literal `".git/objects/"` used by `src/objects.rs`
lines 90 and 198-204 and by `src/commands/cat_file.rs` lines 26-30. -/
def dotGitObjects : List Nat := strBytes (".git/objects/")

/-- Bytes of the literal `"./git/objects/"` used by the inline cat-file
arm in `src/main.rs` lines 52-56. -/
def mainGitObjects : List Nat := strBytes ("./git/objects/")

/-- `format!("{root}{pre}/{suf}")`: the canonical path assembled from a
root, the two-character prefix and the remaining suffix. -/
def objectPathFrom (root pre suf : List Nat) : List Nat := root ++ pre ++ 47 :: suf

/-- `Object::read` (`src/objects.rs` lines 87-141) against a store
state: slice the key at byte index 2 (panicking on short keys or keys
with a char boundary violation), open
`.git/objects/<pre>/<suf>` (NotFound when absent), then decode the
decompressed stream. -/
def Object.read (key : List Nat) (store : Store) : Except ReadError (Kind × Nat × List Nat) :=
  match sliceAt key 2 with
  | .error _ => .error .panicked
  | .ok p =>
    match List.lookup (objectPathFrom dotGitObjects p.1 p.2) store with
    | none => .error .notFound
    | some contents => readStream contents

/-- Rotate a 32-bit word left by `k` bits. -/
def rotl (k x : Nat) : Nat := ((x <<< k) ||| (x >>> (32 - k))) % 4294967296

/-- Big-endian 32-bit word from four bytes. -/
def beWord (a b c d : Nat) : Nat := ((a * 256 + b) * 256 + c) * 256 + d

/-- The sixteen big-endian words of a 64-byte chunk. -/
def chunkWords : List Nat → List Nat
  | a :: b :: c :: d :: rest => beWord a b c d :: chunkWords rest
  | _ => []

/-- One step of the SHA-1 message-schedule extension: append
`rotl1 (w[n-3] xor w[n-8] xor w[n-14] xor w[n-16])`. -/
def extendStep (w : List Nat) : List Nat :=
  let n := w.length
  w ++ [rotl 1 ((w.getD (n - 3) 0) ^^^ (w.getD (n - 8) 0) ^^^
                (w.getD (n - 14) 0) ^^^ (w.getD (n - 16) 0))]

/-- Iterate the schedule extension. -/
def extendIter : Nat → List Nat → List Nat
  | 0, w => w
  | k + 1, w => extendIter k (extendStep w)

/-- The 80-word schedule of a chunk. -/
def schedule (chunk : List Nat) : List Nat := extendIter 64 (chunkWords chunk)

/-- The five 32-bit state words of SHA-1. -/
structure Sha1H where
  a : Nat
  b : Nat
  c : Nat
  d : Nat
  e : Nat
deriving DecidableEq

/-- One SHA-1 round (round constant and boolean function selected by the
round index). -/
def sha1Round (w : List Nat) (st : Sha1H) (i : Nat) : Sha1H :=
  let f :=
    if i < 20 then (st.b &&& st.c) ||| ((st.b ^^^ 4294967295) &&& st.d)
    else if i < 40 then st.b ^^^ st.c ^^^ st.d
    else if i < 60 then (st.b &&& st.c) ||| (st.b &&& st.d) ||| (st.c &&& st.d)
    else st.b ^^^ st.c ^^^ st.d
  let kc :=
    if i < 20 then 1518500249
    else if i < 40 then 1859775393
    else if i < 60 then 2400959708
    else 3395469782
  let temp := (rotl 5 st.a + f + st.e + kc + w.getD i 0) % 4294967296
  ⟨temp, st.a, rotl 30 st.b, st.c, st.d⟩

/-- SHA-1 compression of one 64-byte chunk into the running state. -/
def sha1Compress (h : Sha1H) (chunk : List Nat) : Sha1H :=
  let w := schedule chunk
  let r := (List.range 80).foldl (sha1Round w) h
  ⟨(h.a + r.a) % 4294967296, (h.b + r.b) % 4294967296, (h.c + r.c) % 4294967296,
   (h.d + r.d) % 4294967296, (h.e + r.e) % 4294967296⟩

/-- Streaming SHA-1 context: running state, buffered partial chunk, and
total message length in bytes.  This mirrors the incremental
`Sha1::update` interface the Rust code drives through `HashWriter`. -/
structure Sha1Ctx where
  h : Sha1H
  buf : List Nat
  msgLen : Nat
deriving DecidableEq

/-- The SHA-1 initialization vector. -/
def sha1Init : Sha1Ctx :=
  ⟨⟨1732584193, 4023233417, 2562383102, 271733878, 3285377520⟩, [], 0⟩

/-- Feed one byte into the context, compressing when a chunk fills. -/
def sha1Byte (c : Sha1Ctx) (b : Nat) : Sha1Ctx :=
  let buf := c.buf ++ [b]
  if buf.length = 64 then ⟨sha1Compress c.h buf, [], c.msgLen + 1⟩
  else ⟨c.h, buf, c.msgLen + 1⟩

/-- Feed a byte sequence into the context. -/
def sha1Append (c : Sha1Ctx) (l : List Nat) : Sha1Ctx := l.foldl sha1Byte c

/-- Big-endian 8-byte rendering of a 64-bit value. -/
def beBytes8 (n : Nat) : List Nat :=
  [(n >>> 56) % 256, (n >>> 48) % 256, (n >>> 40) % 256, (n >>> 32) % 256,
   (n >>> 24) % 256, (n >>> 16) % 256, (n >>> 8) % 256, n % 256]

/-- Big-endian 4-byte rendering of a 32-bit word. -/
def beBytes4 (n : Nat) : List Nat :=
  [(n >>> 24) % 256, (n >>> 16) % 256, (n >>> 8) % 256, n % 256]

/-- SHA-1 padding for a message of `len` bytes: 0x80, zeros to 56 mod
64, and the bit length as 8 big-endian bytes. -/
def sha1Pad (len : Nat) : List Nat :=
  128 :: List.replicate ((119 - len % 64) % 64) 0 ++ beBytes8 (8 * len)

/-- Finalize: absorb the padding and emit the 20 digest bytes. -/
def sha1Final (c : Sha1Ctx) : List Nat :=
  let f := (sha1Append c (sha1Pad c.msgLen)).h
  beBytes4 f.a ++ beBytes4 f.b ++ beBytes4 f.c ++ beBytes4 f.d ++ beBytes4 f.e

/-- SHA-1 of a byte sequence (FIPS 180), the hash the `sha1` crate
computes for `Sha1::new` / `update` / `finalize`. -/
def sha1 (msg : List Nat) : List Nat := sha1Final (sha1Append sha1Init msg)

/-- One lowercase hex digit byte (0-9 then a-f), as produced by
`hex::encode`. -/
def hexDigit (n : Nat) : Nat := if n < 10 then 48 + n else 87 + n

/-- `hex::encode`: two lowercase hex digit bytes per input byte, in
order. -/
def hexEncode (l : List Nat) : List Nat :=
  l.foldr (fun b acc => hexDigit (b / 16) :: hexDigit (b % 16) :: acc) []

/-- State of `HashWriter` (`src/objects.rs` lines 216-236) observed
through the bytes it has handled: `downstream` is everything forwarded
into the wrapped writer (the zlib encoder), `hashed` is everything fed
to the SHA-1 hasher.  A single `write` call forwards `buf`, learns that
the downstream accepted `n` bytes, and hashes exactly that accepted
prefix `buf[..n]`. -/
structure HashWriterState where
  downstream : List Nat
  hashed : List Nat
deriving DecidableEq

/-- `HashWriter::write` (`src/objects.rs` lines 225-231) with `n` the
byte count the downstream writer accepted. -/
def hwWrite (s : HashWriterState) (buf : List Nat) (n : Nat) : HashWriterState :=
  ⟨s.downstream ++ buf.take n, s.hashed ++ buf.take n⟩

/-- The byte traffic of `Object::write` (`src/objects.rs` lines
156-177): the header is written through the `HashWriter`, then
`io::copy` streams the whole payload through it.  `write!` and
`io::copy` both retry until every byte is accepted, so each logical
write is modelled as accepted in full. -/
def writeCore (k : Kind) (size : Nat) (payload : List Nat) : HashWriterState :=
  hwWrite (hwWrite ⟨[], []⟩ (Kind.render k ++ 32 :: decDigits size ++ [0])
      (Kind.render k ++ 32 :: decDigits size ++ [0]).length)
    payload payload.length

/-- The encoded header `"<kind> <size>\0"` as bytes. -/
def headerBytes (k : Kind) (size : Nat) : List Nat :=
  Kind.render k ++ 32 :: decDigits size ++ [0]

/-- Result of `Object::write`: the 20 digest bytes it returns and the
bytes delivered to the destination sink (the zlib output). -/
structure WriteResult where
  digest : List Nat
  stored : List Nat
deriving DecidableEq

/-- `Object::write` (`src/objects.rs` lines 156-177) with the zlib
encoder abstracted as the function `compress` from its input bytes to
its output bytes: the digest is the SHA-1 of the bytes the `HashWriter`
hashed, and the sink receives the compression of the bytes forwarded
downstream. -/
def Object.write (k : Kind) (size : Nat) (payload : List Nat)
    (compress : List Nat → List Nat) : WriteResult :=
  ⟨sha1 (writeCore k size payload).hashed, compress (writeCore k size payload).downstream⟩

/-- Filesystem state relevant to `Object::write_to_objects`: the object
store plus the contents of the staging file named `"temporary"`, when
that file exists. -/
structure FsState where
  store : Store
  tmpFile : Option (List Nat)
deriving DecidableEq

/-- The staging file name of `src/objects.rs` line 189:
`let tmp = "temporary";`. -/
def tmpName : List Nat := strBytes ("temporary")

/-- The staging file name chosen by a given write attempt.  The source
picks the fixed literal `"temporary"` on every call, so the choice does
not depend on the attempt. -/
def stagingName (_attempt : Nat) : List Nat := tmpName

/-- The canonical path `".git/objects/<first 2 hex chars>/<rest>"`
assembled from a hex key by `write_to_objects` (`src/objects.rs` lines
194-206); the hex rendering of a 20-byte digest is 40 ASCII characters,
so the slices there cannot panic. -/
def objectPathOfHex (hx : List Nat) : List Nat :=
  objectPathFrom dotGitObjects (hx.take 2) (hx.drop 2)

/-- `Object::write_to_objects` (`src/objects.rs` lines 187-209) against
a filesystem state.  The object is streamed into the staging file
`"temporary"` (computing the digest), then renamed to its canonical
path.  `renameOk` injects the success or failure of the final
`fs::rename`: on success the staging file has been moved into the store;
on failure the call returns an error and the staging file is left in
place, since no code path removes it.  The store keeps decompressed
contents, compression being a lossless layer. -/
def write_to_objects (k : Kind) (size : Nat) (payload : List Nat) (fs : FsState)
    (renameOk : Bool) : Except ReadError (List Nat) × FsState :=
  let r := Object.write k size payload (fun l => l)
  let hx := hexEncode r.digest
  if renameOk then
    (.ok r.digest, ⟨(objectPathOfHex hx, r.stored) :: fs.store, none⟩)
  else
    (.error .ioFailure, ⟨fs.store, some r.stored⟩)

/-- Failure outcomes of the two cat-file implementations.  `panicked`
models the `CStr` `.expect` panic shared by both; the other constructors
model their distinct `anyhow` bail and ensure sites. -/
inductive CatError
  | panicked
  | malformedUtf8
  | malformedHeader
  | unknownKindPrint
  | invalidSize
  | shortRead
  | trailingBytes
  | sizeMismatch
deriving DecidableEq

/-- The header pipeline shared verbatim by the inline cat-file arm
(`src/main.rs` lines 67-91) and `commands/cat_file.rs` lines 43-85:
read_until NUL, `CStr` check (panic on failure), UTF-8 check,
`split_once(' ')`, then a kind match that accepts only `"blob"`, and the
size parse (`usize` in `src/main.rs`, `u64` in `cat_file.rs`; both are
64-bit here).  Returns the declared size and the stream after the
header. -/
def blobHeaderDecode (stream : List Nat) : Except CatError (Nat × List Nat) :=
  let p := readUntilNul stream
  if cstrOk p.1 then
    let hdr := p.1.dropLast
    if isValidUtf8 hdr then
      match splitOnceSpace hdr with
      | none => .error .malformedHeader
      | some q =>
        if q.1 = Kind.render .Blob then
          match parseU64 q.2 with
          | none => .error .invalidSize
          | some size => .ok (size, p.2)
        else .error .unknownKindPrint
    else .error .malformedUtf8
  else .error .panicked

/-- Observable outcome of a cat-file run on one object stream: the bytes
written to stdout and the error, if any. -/
structure CmdResult where
  stdout : List Nat
  err : Option CatError
deriving DecidableEq

/-- The stream handling of the inline cat-file arm in `src/main.rs`
lines 67-108: after the header, `read_exact` demands exactly `size`
payload bytes (failing if fewer remain), a further 1-byte read must hit
end of stream (failing on trailing bytes), and only then is the payload
written to stdout. -/
def mainCatStream (stream : List Nat) : CmdResult :=
  match blobHeaderDecode stream with
  | .error e => ⟨[], some e⟩
  | .ok r =>
    if r.2.length < r.1 then ⟨[], some .shortRead⟩
    else if r.1 < r.2.length then ⟨[], some .trailingBytes⟩
    else ⟨r.2, none⟩

/-- The stream handling of `commands/cat_file.rs` lines 87-109: the
reader is bounded by `take(size)`, `io::copy` streams it to stdout (so
up to `size` bytes are already written), and afterwards `ensure!` checks
that the copied count equals the declared size; trailing stream bytes
beyond `size` are never examined. -/
def catFileStream (stream : List Nat) : CmdResult :=
  match blobHeaderDecode stream with
  | .error e => ⟨[], some e⟩
  | .ok r =>
    let out := r.2.take r.1
    if out.length = r.1 then ⟨out, none⟩ else ⟨out, some .sizeMismatch⟩

/-- The object path opened by the inline cat-file arm (`src/main.rs`
lines 52-56): `"./git/objects/<pre>/<suf>"`, with the panicking key
slices. -/
def mainObjectPath (key : List Nat) : Except SlicePanic (List Nat) :=
  match sliceAt key 2 with
  | .error e => .error e
  | .ok p => .ok (objectPathFrom mainGitObjects p.1 p.2)

/-- The object path opened by `commands/cat_file.rs` lines 26-30:
`".git/objects/<pre>/<suf>"`, with the panicking key slices. -/
def catObjectPath (key : List Nat) : Except SlicePanic (List Nat) :=
  match sliceAt key 2 with
  | .error e => .error e
  | .ok p => .ok (objectPathFrom dotGitObjects p.1 p.2)

set_option maxRecDepth 40000

theorem decDigitsAux_eq (fuel : Nat) : ∀ n acc, 0 < n → n < fuel →
    decDigitsAux fuel n acc = ((Nat.digits 10 n).reverse.map (fun d => 48 + d)) ++ acc := by
  induction fuel with
  | zero => intro n acc h0 h; omega
  | succ fuel ih =>
    intro n acc h0 h
    rw [decDigitsAux]
    by_cases h10 : n < 10
    · rw [if_pos h10]
      rw [Nat.digits_def' (by norm_num : (1 : Nat) < 10) h0]
      rw [Nat.mod_eq_of_lt h10, Nat.div_eq_of_lt h10]
      simp
    · rw [if_neg h10]
      have hpos : 0 < n / 10 := Nat.div_pos (by omega) (by norm_num)
      have hlt : n / 10 < fuel :=
        lt_of_lt_of_le (Nat.div_lt_self h0 (by norm_num)) (by omega)
      rw [ih (n / 10) _ hpos hlt]
      rw [Nat.digits_def' (by norm_num : (1 : Nat) < 10) h0]
      simp [List.append_assoc]

theorem decDigits_eq_digits (n : Nat) (h0 : 0 < n) :
    decDigits n = (Nat.digits 10 n).reverse.map (fun d => 48 + d) := by
  rw [decDigits, decDigitsAux_eq (n + 1) n [] h0 (by omega), List.append_nil]

theorem decDigits_zero : decDigits 0 = [48] := rfl

theorem decDigits_mem_bounds (n : Nat) : ∀ b ∈ decDigits n, 48 ≤ b ∧ b ≤ 57 := by
  rcases Nat.eq_zero_or_pos n with rfl | h0
  · intro b hb
    rw [decDigits_zero, List.mem_singleton] at hb
    omega
  · intro b hb
    rw [decDigits_eq_digits n h0] at hb
    simp only [List.mem_map, List.mem_reverse] at hb
    obtain ⟨d, hd, rfl⟩ := hb
    have := Nat.digits_lt_base (by norm_num) hd
    omega

theorem decDigits_ne_nil (n : Nat) : decDigits n ≠ [] := by
  rcases Nat.eq_zero_or_pos n with rfl | h0
  · rw [decDigits_zero]; simp
  · rw [decDigits_eq_digits n h0]
    intro h
    rw [List.map_eq_nil_iff, List.reverse_eq_nil_iff] at h
    exact Nat.digits_ne_nil_iff_ne_zero.mpr (by omega) h

theorem digitVal_shift (d : Nat) (h : d < 10) : digitVal (48 + d) = some d := by
  unfold digitVal
  rw [if_pos ⟨by omega, by omega⟩]
  congr 1
  omega

theorem parseDigitsAux_map (ds : List Nat) : ∀ v, (∀ d ∈ ds, d < 10) →
    parseDigitsAux (ds.map (fun d => 48 + d)) v =
      some (ds.foldl (fun a d => a * 10 + d) v) := by
  induction ds with
  | nil => intro v _; rfl
  | cons d ds ih =>
    intro v h
    have hd : d < 10 := h d (List.mem_cons_self d ds)
    simp only [List.map_cons, parseDigitsAux, digitVal_shift d hd, List.foldl_cons]
    exact ih (v * 10 + d) (fun x hx => h x (List.mem_cons_of_mem _ hx))

theorem foldl_reverse_ofDigits (ds : List Nat) : ∀ v : Nat,
    ds.reverse.foldl (fun a d => a * 10 + d) v =
      v * 10 ^ ds.length + Nat.ofDigits 10 ds := by
  induction ds with
  | nil => intro v; simp
  | cons d ds ih =>
    intro v
    rw [List.reverse_cons, List.foldl_append, ih v]
    simp only [List.foldl_cons, List.foldl_nil, Nat.ofDigits_cons, List.length_cons]
    ring

theorem parseDigits_decDigits (n : Nat) : parseDigits (decDigits n) = some n := by
  rcases Nat.eq_zero_or_pos n with rfl | h0
  · rfl
  · have hmem : ∀ d ∈ (Nat.digits 10 n).reverse, d < 10 := fun d hd =>
      Nat.digits_lt_base (by norm_num) (List.mem_reverse.mp hd)
    cases hcase : decDigits n with
    | nil => exact absurd hcase (decDigits_ne_nil n)
    | cons b t =>
      have : parseDigits (b :: t) = parseDigitsAux (b :: t) 0 := rfl
      rw [this, ← hcase, decDigits_eq_digits n h0]
      rw [parseDigitsAux_map _ 0 hmem]
      rw [foldl_reverse_ofDigits]
      simp [Nat.ofDigits_digits]

theorem parseU64_decDigits (n : Nat) (h : n < 18446744073709551616) :
    parseU64 (decDigits n) = some n := by
  cases hc : decDigits n with
  | nil => exact absurd hc (decDigits_ne_nil n)
  | cons b t =>
    have hb : 48 ≤ b ∧ b ≤ 57 := decDigits_mem_bounds n b (by rw [hc]; exact List.mem_cons_self b t)
    rw [parseU64, stripPlus, if_neg (show ¬b = 43 by omega), ← hc]
    simp only [parseDigits_decDigits n]
    rw [if_pos h]

theorem readUntilNul_no_nul (s : List Nat) (h : ∀ b ∈ s, b ≠ 0) :
    readUntilNul s = (s, []) := by
  induction s with
  | nil => rfl
  | cons b rest ih =>
    rw [readUntilNul, if_neg (h b (List.mem_cons_self b rest))]
    rw [ih (fun x hx => h x (List.mem_cons_of_mem _ hx))]

theorem readUntilNul_append (xs rest : List Nat) (h : 0 ∉ xs) :
    readUntilNul (xs ++ 0 :: rest) = (xs ++ [0], rest) := by
  induction xs with
  | nil => simp [readUntilNul]
  | cons b t ih =>
    have hb : ¬b = 0 := fun hb => h (by rw [hb]; exact List.mem_cons_self 0 t)
    rw [List.cons_append, readUntilNul, if_neg hb]
    rw [ih (fun hx => h (List.mem_cons_of_mem _ hx))]
    rfl

theorem cstrOk_concat (xs : List Nat) (h : 0 ∉ xs) : cstrOk (xs ++ [0]) = true := by
  rw [cstrOk, decide_eq_true_eq]
  constructor
  · rw [List.getLast?_concat]
  · rw [List.dropLast_concat]
    exact h

theorem isValidUtf8_ascii (l : List Nat) (h : ∀ b ∈ l, b < 128) : isValidUtf8 l = true := by
  induction l with
  | nil => rfl
  | cons b t ih =>
    rw [isValidUtf8, utf8Scan, if_pos (h b (List.mem_cons_self b t))]
    exact ih (fun x hx => h x (List.mem_cons_of_mem _ hx))

theorem splitOnceSpace_append (xs ys : List Nat) (h : 32 ∉ xs) :
    splitOnceSpace (xs ++ 32 :: ys) = some (xs, ys) := by
  induction xs with
  | nil => simp [splitOnceSpace]
  | cons b t ih =>
    have hb : ¬b = 32 := fun hb => h (by rw [hb]; exact List.mem_cons_self 32 t)
    rw [List.cons_append, splitOnceSpace, if_neg hb]
    rw [ih (fun hx => h (List.mem_cons_of_mem _ hx))]

theorem kindOfToken_render (k : Kind) : kindOfToken (Kind.render k) = some k := by
  cases k <;> rfl

theorem render_no_nul (k : Kind) : 0 ∉ Kind.render k := by cases k <;> decide

theorem render_no_space (k : Kind) : 32 ∉ Kind.render k := by cases k <;> decide

theorem render_ascii (k : Kind) : ∀ b ∈ Kind.render k, b < 128 := by cases k <;> decide

theorem headerBody_no_nul (k : Kind) (size : Nat) :
    0 ∉ Kind.render k ++ 32 :: decDigits size := by
  simp only [List.mem_append, List.mem_cons]
  rintro (hm | hm | hm)
  · exact render_no_nul k hm
  · omega
  · have := decDigits_mem_bounds size 0 hm
    omega

theorem headerBody_ascii (k : Kind) (size : Nat) :
    ∀ b ∈ Kind.render k ++ 32 :: decDigits size, b < 128 := by
  intro b hb
  simp only [List.mem_append, List.mem_cons] at hb
  rcases hb with hm | hm | hm
  · exact render_ascii k b hm
  · omega
  · have := decDigits_mem_bounds size b hm
    omega

theorem headerBytes_eq (k : Kind) (size : Nat) (rest : List Nat) :
    headerBytes k size ++ rest = (Kind.render k ++ 32 :: decDigits size) ++ 0 :: rest := by
  simp [headerBytes, List.append_assoc]

theorem headerDecode_headerBytes (k : Kind) (size : Nat) (rest : List Nat)
    (h : size < 18446744073709551616) :
    headerDecode (headerBytes k size ++ rest) = .ok (k, size, rest) := by
  rw [headerBytes_eq]
  rw [headerDecode]
  rw [readUntilNul_append _ _ (headerBody_no_nul k size)]
  simp only [cstrOk_concat _ (headerBody_no_nul k size), if_true, List.dropLast_concat]
  rw [isValidUtf8_ascii _ (headerBody_ascii k size), if_pos rfl]
  rw [splitOnceSpace_append _ _ (render_no_space k)]
  simp only [kindOfToken_render k, parseU64_decDigits size h]

theorem readStream_headerBytes (k : Kind) (size : Nat) (rest : List Nat)
    (h : size < 18446744073709551616) :
    readStream (headerBytes k size ++ rest) = .ok (k, size, rest.take size) := by
  rw [readStream, headerDecode_headerBytes k size rest h]

theorem writeCore_eq (k : Kind) (size : Nat) (payload : List Nat) :
    writeCore k size payload =
      ⟨headerBytes k size ++ payload, headerBytes k size ++ payload⟩ := by
  rw [writeCore, hwWrite, hwWrite]
  simp only [List.take_length, List.nil_append]
  rfl

theorem objectWrite_digest (k : Kind) (size : Nat) (payload : List Nat)
    (compress : List Nat → List Nat) :
    (Object.write k size payload compress).digest = sha1 (headerBytes k size ++ payload) := by
  rw [Object.write, writeCore_eq]

theorem objectWrite_stored (k : Kind) (size : Nat) (payload : List Nat)
    (compress : List Nat → List Nat) :
    (Object.write k size payload compress).stored =
      compress (headerBytes k size ++ payload) := by
  rw [Object.write, writeCore_eq]

theorem hexEncode_cons (b : Nat) (t : List Nat) :
    hexEncode (b :: t) = hexDigit (b / 16) :: hexDigit (b % 16) :: hexEncode t := rfl

theorem hexEncode_length (l : List Nat) : (hexEncode l).length = 2 * l.length := by
  induction l with
  | nil => rfl
  | cons b t ih =>
    rw [hexEncode_cons]
    simp only [List.length_cons, ih]
    omega

theorem hexDigit_lt (n : Nat) (h : n < 16) : hexDigit n < 128 := by
  unfold hexDigit
  split <;> omega

theorem hexEncode_mem_lt (l : List Nat) (h : ∀ b ∈ l, b < 256) :
    ∀ x ∈ hexEncode l, x < 128 := by
  induction l with
  | nil => intro x hx; simp [hexEncode] at hx
  | cons b t ih =>
    intro x hx
    rw [hexEncode_cons] at hx
    have hb : b < 256 := h b (List.mem_cons_self b t)
    rcases List.mem_cons.mp hx with rfl | hx2
    · exact hexDigit_lt _ (by omega)
    rcases List.mem_cons.mp hx2 with rfl | hx3
    · exact hexDigit_lt _ (by omega)
    · exact ih (fun y hy => h y (List.mem_cons_of_mem _ hy)) x hx3

theorem beBytes4_mem (n : Nat) : ∀ b ∈ beBytes4 n, b < 256 := by
  intro b hb
  simp only [beBytes4, List.mem_cons, List.not_mem_nil, or_false] at hb
  rcases hb with rfl | rfl | rfl | rfl <;> exact Nat.mod_lt _ (by norm_num)

theorem sha1_mem_lt (m : List Nat) : ∀ b ∈ sha1 m, b < 256 := by
  intro b hb
  simp only [sha1, sha1Final, List.mem_append] at hb
  rcases hb with (((h | h) | h) | h) | h <;> exact beBytes4_mem _ _ h

theorem sha1_length (m : List Nat) : (sha1 m).length = 20 := by
  simp [sha1, sha1Final, beBytes4]

theorem sliceAt_hexEncode_sha1 (m : List Nat) :
    sliceAt (hexEncode (sha1 m)) 2 =
      .ok ((hexEncode (sha1 m)).take 2, (hexEncode (sha1 m)).drop 2) := by
  have hlen : (hexEncode (sha1 m)).length = 40 := by
    rw [hexEncode_length, sha1_length]
  have hlt : 2 < (hexEncode (sha1 m)).length := by omega
  have hmem : (hexEncode (sha1 m)).getD 2 0 < 128 := by
    rw [List.getD_eq_getElem _ _ hlt]
    exact hexEncode_mem_lt _ (sha1_mem_lt m) _ (List.getElem_mem hlt)
  rw [sliceAt, if_pos]
  rw [isCharBoundary, decide_eq_true_eq]
  right; right
  exact ⟨hlt, by omega⟩

theorem lookup_cons_self {β : Type} (a : List Nat) (b : β) (t : List (List Nat × β)) :
    List.lookup a ((a, b) :: t) = some b := by
  simp [List.lookup]

theorem write_to_objects_renameOk (k : Kind) (size : Nat) (payload : List Nat)
    (fs : FsState) :
    write_to_objects k size payload fs true =
      (.ok (sha1 (headerBytes k size ++ payload)),
       ⟨(objectPathOfHex (hexEncode (sha1 (headerBytes k size ++ payload))),
         headerBytes k size ++ payload) :: fs.store, none⟩) := by
  rw [write_to_objects]
  simp only [objectWrite_digest, objectWrite_stored, if_true]

theorem read_after_write (k : Kind) (payload : List Nat) (fs : FsState)
    (h : payload.length < 18446744073709551616) :
    Object.read (hexEncode (sha1 (headerBytes k payload.length ++ payload)))
        ((write_to_objects k payload.length payload fs true).2).store =
      .ok (k, payload.length, payload) := by
  rw [write_to_objects_renameOk]
  rw [Object.read, sliceAt_hexEncode_sha1]
  simp only [objectPathOfHex]
  rw [lookup_cons_self]
  show readStream (headerBytes k payload.length ++ payload) = _
  rw [readStream_headerBytes k payload.length payload h, List.take_length]

theorem blobHeaderDecode_headerBytes (size : Nat) (rest : List Nat)
    (h : size < 18446744073709551616) :
    blobHeaderDecode (headerBytes Kind.Blob size ++ rest) = .ok (size, rest) := by
  rw [headerBytes_eq, blobHeaderDecode]
  rw [readUntilNul_append _ _ (headerBody_no_nul Kind.Blob size)]
  simp only [cstrOk_concat _ (headerBody_no_nul Kind.Blob size), if_true, List.dropLast_concat]
  rw [isValidUtf8_ascii _ (headerBody_ascii Kind.Blob size), if_pos rfl]
  rw [splitOnceSpace_append _ _ (render_no_space Kind.Blob)]
  show (if Kind.render .Blob = Kind.render .Blob then _ else _) = _
  rw [if_pos rfl]
  simp only [parseU64_decDigits size h]

theorem mainCatStream_exact (size : Nat) (rest : List Nat)
    (h : size < 18446744073709551616) (hlen : rest.length = size) :
    mainCatStream (headerBytes Kind.Blob size ++ rest) = ⟨rest, none⟩ := by
  rw [mainCatStream, blobHeaderDecode_headerBytes size rest h]
  show (if rest.length < size then _ else if size < rest.length then _ else _) = _
  rw [if_neg (by omega), if_neg (by omega)]

theorem mainCatStream_trailing (size : Nat) (rest : List Nat)
    (h : size < 18446744073709551616) (hlen : size < rest.length) :
    mainCatStream (headerBytes Kind.Blob size ++ rest) =
      ⟨[], some CatError.trailingBytes⟩ := by
  rw [mainCatStream, blobHeaderDecode_headerBytes size rest h]
  show (if rest.length < size then _ else if size < rest.length then _ else _) = _
  rw [if_neg (by omega), if_pos hlen]

theorem catFileStream_ge (size : Nat) (rest : List Nat)
    (h : size < 18446744073709551616) (hge : size ≤ rest.length) :
    catFileStream (headerBytes Kind.Blob size ++ rest) = ⟨rest.take size, none⟩ := by
  rw [catFileStream, blobHeaderDecode_headerBytes size rest h]
  show (if (rest.take size).length = size then _ else _) = _
  rw [if_pos (by rw [List.length_take]; omega)]

theorem mainPath_ne_catPath (key : List Nat) (p : List Nat × List Nat)
    (hs : sliceAt key 2 = .ok p) : mainObjectPath key ≠ catObjectPath key := by
  rw [mainObjectPath, catObjectPath, hs]
  show Except.ok (objectPathFrom mainGitObjects p.1 p.2) ≠
    Except.ok (objectPathFrom dotGitObjects p.1 p.2)
  intro h
  rw [Except.ok.injEq] at h
  have hlen := congrArg List.length h
  have h1 : mainGitObjects.length = 14 := by decide
  have h2 : dotGitObjects.length = 13 := by decide
  simp only [objectPathFrom, List.length_append, List.length_cons, h1, h2] at hlen
  omega

/-- C1: for every kind K and payload byte sequence C (its length
representable as `u64`, the type of `expected_size`), writing the object
(K, C) into the store through `Object::write_to_objects` returns a
digest, and `Object::read` applied to the hex rendering of that digest
returns kind K and a reader that, fully consumed, yields exactly the
bytes C. -/
theorem C1_store_round_trip (k : Kind) (payload : List Nat) (fs : FsState)
    (h : payload.length < 18446744073709551616) :
    (write_to_objects k payload.length payload fs true).1 =
      Except.ok (sha1 (headerBytes k payload.length ++ payload)) ∧
    Object.read (hexEncode (sha1 (headerBytes k payload.length ++ payload)))
        ((write_to_objects k payload.length payload fs true).2).store =
      Except.ok (k, payload.length, payload) := by
  constructor
  · rw [write_to_objects_renameOk]
  · exact read_after_write k payload fs h

/-- Witness for C1 at kind Blob, payload "hi" ([104, 105]), over the
empty filesystem. -/
theorem C1_store_round_trip_witness :
    ([104, 105] : List Nat).length < 18446744073709551616 ∧
    ((write_to_objects Kind.Blob ([104, 105] : List Nat).length [104, 105]
        ⟨[], none⟩ true).1 =
      Except.ok (sha1 (headerBytes Kind.Blob ([104, 105] : List Nat).length ++ [104, 105])) ∧
    Object.read (hexEncode (sha1 (headerBytes Kind.Blob ([104, 105] : List Nat).length ++
          [104, 105])))
        ((write_to_objects Kind.Blob ([104, 105] : List Nat).length [104, 105]
          ⟨[], none⟩ true).2).store =
      Except.ok (Kind.Blob, ([104, 105] : List Nat).length, [104, 105])) :=
  ⟨by decide, C1_store_round_trip Kind.Blob [104, 105] ⟨[], none⟩ (by decide)⟩

/-- C2: the digest returned by `Object::write` is the SHA-1 of the
uncompressed bytes `"<kind> <size>\0" ++ payload` and does not depend on
the compression function at all; hence writing the same (kind, size,
payload) twice — for instance twice in discard mode — returns the
identical digest both times. -/
theorem C2_digest_of_uncompressed (k : Kind) (size : Nat) (payload : List Nat)
    (c₁ c₂ : List Nat → List Nat) :
    (Object.write k size payload c₁).digest = sha1 (headerBytes k size ++ payload) ∧
    (Object.write k size payload c₁).digest = (Object.write k size payload c₂).digest := by
  refine ⟨objectWrite_digest k size payload c₁, ?_⟩
  rw [objectWrite_digest, objectWrite_digest]

/-- C3 counterexample: the hex rendering of the digest of blob
"hello world\n" is a 40-character string and is not equal to the
39-character string stated in the claim (which drops the final d). -/
theorem C3_counterexample :
    hexEncode (Object.write Kind.Blob 12 (strBytes ("hello world\n")) (fun l => l)).digest ≠
      strBytes ("3b18e512dba79e4c8300dd08aeb37f8e728b8da") := by decide

/-- C3 amended: writing the 12-byte payload "hello world\n" as kind Blob
produces the digest whose lowercase hex rendering is
3b18e512dba79e4c8300dd08aeb37f8e728b8dad, and reading that key back
returns exactly the bytes "hello world\n". -/
theorem C3_golden_vector :
    hexEncode (Object.write Kind.Blob 12 (strBytes ("hello world\n")) (fun l => l)).digest =
      strBytes ("3b18e512dba79e4c8300dd08aeb37f8e728b8dad") ∧
    (write_to_objects Kind.Blob 12 (strBytes ("hello world\n")) ⟨[], none⟩ true).1 =
      Except.ok (Object.write Kind.Blob 12 (strBytes ("hello world\n")) (fun l => l)).digest ∧
    Object.read (strBytes ("3b18e512dba79e4c8300dd08aeb37f8e728b8dad"))
        ((write_to_objects Kind.Blob 12 (strBytes ("hello world\n")) ⟨[], none⟩ true).2).store =
      Except.ok (Kind.Blob, 12, strBytes ("hello world\n")) := by decide

/-- C4: for a stored object whose header declares size S while the
decompressed stream continues with more than S bytes, the bounded reader
returned by `Object::read` yields exactly the first S bytes and then
ends, regardless of how much more the stream holds. -/
theorem C4_bounded_reader (k : Kind) (size : Nat) (rest pre suf key : List Nat)
    (store : Store) (hsz : size < 18446744073709551616) (hlong : size < rest.length)
    (hkey : sliceAt key 2 = Except.ok (pre, suf))
    (hlook : List.lookup (objectPathFrom dotGitObjects pre suf) store =
      some (headerBytes k size ++ rest)) :
    Object.read key store = Except.ok (k, size, rest.take size) ∧
    (rest.take size).length = size := by
  constructor
  · rw [Object.read, hkey]
    show (match List.lookup (objectPathFrom dotGitObjects pre suf) store with
      | none => Except.error ReadError.notFound
      | some contents => readStream contents) = _
    rw [hlook]
    show readStream (headerBytes k size ++ rest) = _
    rw [readStream_headerBytes k size rest hsz]
  · rw [List.length_take]
    omega

/-- Witness for C4: a blob object declaring size 1 whose stream carries
two payload bytes, stored under the key "ab"; reading yields exactly the
one declared byte. -/
theorem C4_bounded_reader_witness :
    (1 : Nat) < 18446744073709551616 ∧ (1 : Nat) < ([97, 98] : List Nat).length ∧
    sliceAt [97, 98] 2 = Except.ok ([97, 98], []) ∧
    List.lookup (objectPathFrom dotGitObjects [97, 98] [])
        [(objectPathFrom dotGitObjects [97, 98] [], headerBytes Kind.Blob 1 ++ [97, 98])] =
      some (headerBytes Kind.Blob 1 ++ [97, 98]) ∧
    (Object.read [97, 98]
        [(objectPathFrom dotGitObjects [97, 98] [], headerBytes Kind.Blob 1 ++ [97, 98])] =
      Except.ok (Kind.Blob, 1, ([97, 98] : List Nat).take 1) ∧
    (([97, 98] : List Nat).take 1).length = 1) :=
  ⟨by decide, by decide, by decide, by decide,
   C4_bounded_reader Kind.Blob 1 [97, 98] [97, 98] [] [97, 98]
     [(objectPathFrom dotGitObjects [97, 98] [], headerBytes Kind.Blob 1 ++ [97, 98])]
     (by decide) (by decide) (by decide) (by decide)⟩

/-- C5 (code bug): on a decompressed stream containing no NUL byte at
all — here the bytes of "blob 12" — the header decode reaches the
`.expect` on `CStr::from_bytes_with_nul` and panics; it does not return
the ordinary Malformed error result the specification describes (the
model keeps the panic value distinct from both malformed errors). -/
theorem C5_no_nul_is_panic :
    headerDecode (strBytes ("blob 12")) = Except.error ReadError.panicked ∧
    readStream (strBytes ("blob 12")) = Except.error ReadError.panicked ∧
    ReadError.panicked ≠ ReadError.malformedHeader ∧
    ReadError.panicked ≠ ReadError.malformedUtf8 := by decide

/-- C6: header decoding distinguishes an unknown kind token from an
invalid size field: the header bytes of "tree abc\0" fail with the
invalid-size error (not unknown kind), and those of "widget 3\0" fail
with the unknown-kind error (not invalid size); the two outcomes are
distinct. -/
theorem C6_unknown_kind_vs_invalid_size :
    headerDecode (strBytes ("tree abc") ++ [0]) = Except.error ReadError.invalidSize ∧
    headerDecode (strBytes ("widget 3") ++ [0]) = Except.error ReadError.unknownKind ∧
    ReadError.invalidSize ≠ ReadError.unknownKind := by decide

/-- C7 counterexample: write attempts 0 and 1 choose the identical
staging name (the fixed literal "temporary"), refuting per-attempt
uniqueness, and after a failed rename the staging file is still present,
refuting removal on every exit path. -/
theorem C7_counterexample :
    stagingName 0 = stagingName 1 ∧
    (write_to_objects Kind.Blob 0 [] ⟨[], none⟩ false).2.tmpFile ≠ none := by decide

/-- C7 amended: in store mode every write attempt stages through the one
fixed file name "temporary" (shared across attempts, not unique), and
the staging file is consumed only by the successful rename; on a failed
rename it is left behind, no exit path removing it. -/
theorem C7_fixed_staging_name (i j : Nat) (k : Kind) (size : Nat) (payload : List Nat)
    (fs : FsState) :
    stagingName i = tmpName ∧ stagingName i = stagingName j ∧
    (write_to_objects k size payload fs false).2.tmpFile =
      some (headerBytes k size ++ payload) ∧
    (write_to_objects k size payload fs true).2.tmpFile = none := by
  refine ⟨rfl, rfl, ?_, rfl⟩
  show some ((Object.write k size payload (fun l => l)).stored) = _
  rw [objectWrite_stored]

/-- C8 counterexample: `Object::write` driven with expected_size 5 but a
3-byte payload source emits a stream whose header declares size 5 while
only 3 payload bytes follow it — no assertion in the writer prevents
this. -/
theorem C8_counterexample :
    (writeCore Kind.Blob 5 [97, 98, 99]).downstream =
      headerBytes Kind.Blob 5 ++ [97, 98, 99] ∧
    headerDecode ((writeCore Kind.Blob 5 [97, 98, 99]).downstream) =
      Except.ok (Kind.Blob, 5, [97, 98, 99]) ∧
    ([97, 98, 99] : List Nat).length ≠ 5 := by decide

/-- C8 amended: the writer stamps expected_size into the header and then
streams whatever bytes the payload source yields, with no check relating
the two: decoding the emitted stream recovers the declared size and the
streamed payload independently, also when their lengths disagree. -/
theorem C8_no_size_payload_assertion (k : Kind) (size : Nat) (payload : List Nat)
    (h : size < 18446744073709551616) :
    (writeCore k size payload).downstream = headerBytes k size ++ payload ∧
    headerDecode ((writeCore k size payload).downstream) =
      Except.ok (k, size, payload) := by
  have hw := writeCore_eq k size payload
  constructor
  · rw [hw]
  · rw [hw]
    exact headerDecode_headerBytes k size payload h

/-- Witness for C8 amended at (Blob, declared size 5, 3-byte payload). -/
theorem C8_no_size_payload_assertion_witness :
    (5 : Nat) < 18446744073709551616 ∧
    ((writeCore Kind.Blob 5 [97, 98, 99]).downstream =
        headerBytes Kind.Blob 5 ++ [97, 98, 99] ∧
      headerDecode ((writeCore Kind.Blob 5 [97, 98, 99]).downstream) =
        Except.ok (Kind.Blob, 5, [97, 98, 99])) :=
  ⟨by decide, C8_no_size_payload_assertion Kind.Blob 5 [97, 98, 99] (by decide)⟩

/-- C9 counterexample: for the 40-character key 3b18...8dad the inline
main.rs handler opens "./git/objects/3b/..." while cat_file.rs opens
".git/objects/3b/..."; and on the stream "blob 1\0ab" (one byte beyond
the declared payload) main.rs fails with a trailing-bytes error and
empty stdout while cat_file.rs succeeds and prints "a". -/
theorem C9_counterexample :
    mainObjectPath (strBytes ("3b18e512dba79e4c8300dd08aeb37f8e728b8dad")) ≠
      catObjectPath (strBytes ("3b18e512dba79e4c8300dd08aeb37f8e728b8dad")) ∧
    mainCatStream (strBytes ("blob 1") ++ 0 :: [97, 98]) =
      ⟨[], some CatError.trailingBytes⟩ ∧
    catFileStream (strBytes ("blob 1") ++ 0 :: [97, 98]) = ⟨[97], none⟩ := by decide

/-- C9 amended: the two cat-file implementations share the header
pipeline and agree — same stdout bytes, same success — on blob objects
whose stream length equals the declared size; but they are not
equivalent: for any key they open different paths ("./git/objects/..."
in main.rs versus ".git/objects/..." in cat_file.rs), and on a stream
with trailing bytes beyond the declared size main.rs fails with empty
stdout while cat_file.rs succeeds with the declared payload. -/
theorem C9_inequivalent_cat_file (size : Nat) (rest key : List Nat)
    (p : List Nat × List Nat) (hsz : size < 18446744073709551616)
    (hkey : sliceAt key 2 = Except.ok p) :
    (rest.length = size →
      mainCatStream (headerBytes Kind.Blob size ++ rest) = ⟨rest, none⟩ ∧
      catFileStream (headerBytes Kind.Blob size ++ rest) = ⟨rest, none⟩) ∧
    mainObjectPath key ≠ catObjectPath key ∧
    (size < rest.length →
      mainCatStream (headerBytes Kind.Blob size ++ rest) =
        ⟨[], some CatError.trailingBytes⟩ ∧
      catFileStream (headerBytes Kind.Blob size ++ rest) = ⟨rest.take size, none⟩) := by
  refine ⟨fun hlen => ⟨mainCatStream_exact size rest hsz hlen, ?_⟩,
    mainPath_ne_catPath key p hkey,
    fun hlong => ⟨mainCatStream_trailing size rest hsz hlong,
      catFileStream_ge size rest hsz (by omega)⟩⟩
  rw [catFileStream_ge size rest hsz (by omega)]
  rw [← hlen, List.take_length]

/-- Witness for C9 amended: declared size 1, stream carrying two payload
bytes, key "ab". -/
theorem C9_inequivalent_cat_file_witness :
    (1 : Nat) < 18446744073709551616 ∧
    sliceAt [97, 98] 2 = Except.ok ([97, 98], []) ∧
    ((([97, 98] : List Nat).length = 1 →
      mainCatStream (headerBytes Kind.Blob 1 ++ [97, 98]) = ⟨[97, 98], none⟩ ∧
      catFileStream (headerBytes Kind.Blob 1 ++ [97, 98]) = ⟨[97, 98], none⟩) ∧
    mainObjectPath [97, 98] ≠ catObjectPath [97, 98] ∧
    ((1 : Nat) < ([97, 98] : List Nat).length →
      mainCatStream (headerBytes Kind.Blob 1 ++ [97, 98]) =
        ⟨[], some CatError.trailingBytes⟩ ∧
      catFileStream (headerBytes Kind.Blob 1 ++ [97, 98]) =
        ⟨([97, 98] : List Nat).take 1, none⟩)) :=
  ⟨by decide, by decide,
   C9_inequivalent_cat_file 1 [97, 98] [97, 98] ([97, 98], []) (by decide) (by decide)⟩

/-- C10 counterexample: `Object::read` applied to the empty key panics
while slicing the key at byte index 2 (the model keeps the panic value
distinct from ordinary error results such as NotFound); it does not
return an ordinary error. -/
theorem C10_counterexample :
    Object.read [] [] = Except.error ReadError.panicked ∧
    ReadError.panicked ≠ ReadError.notFound := by decide

/-- C10 amended: for every key for which byte index 2 is not a char
boundary — the empty key, keys shorter than 2 bytes, and keys whose
index 2 falls inside a multi-byte UTF-8 character — `Object::read` and
both cat-file path computations panic when forming the canonical path,
rather than returning an ordinary error result. -/
theorem C10_short_key_panics (key : List Nat) (store : Store)
    (h : isCharBoundary key 2 = false) :
    Object.read key store = Except.error ReadError.panicked ∧
    mainObjectPath key = Except.error SlicePanic.panicked ∧
    catObjectPath key = Except.error SlicePanic.panicked := by
  have hs : sliceAt key 2 = Except.error SlicePanic.panicked := by
    simp [sliceAt, h]
  exact ⟨by rw [Object.read, hs], by rw [mainObjectPath, hs], by rw [catObjectPath, hs]⟩

/-- Witness for C10 amended: the 1-byte key "a" over the empty store. -/
theorem C10_short_key_panics_witness :
    isCharBoundary [97] 2 = false ∧
    (Object.read [97] [] = Except.error ReadError.panicked ∧
    mainObjectPath [97] = Except.error SlicePanic.panicked ∧
    catObjectPath [97] = Except.error SlicePanic.panicked) :=
  ⟨by decide, C10_short_key_panics [97] [] (by decide)⟩
